import Mathlib

/-!
Verification development for the reclaim-cli request-construction layer.

The definitions below shallowly embed the payload-building, validation,
error-message-extraction and task-classification code of the repository
(`src/main.rs`, `src/reclaim_api.rs`, `src/cli.rs`, `src/error.rs`).

Modelling conventions:
* `serde_json::Value` becomes the inductive `Json`.  Integer number literals
  are carried as `Json.num : Int`; non-integer number literals (with a
  fraction or exponent part) are kept as their source token in `Json.fnum`,
  since no code under verification computes with their numeric value.
* `serde_json::Map<String, Value>` becomes an association list `JMap` whose
  `mapInsert` replaces the binding of an existing key, which gives the same
  key/value (lookup) semantics; iteration order of the B-tree map is not
  modelled, as none of the verified code depends on it.
* `serde_json::from_str` becomes the total, fuel-driven parser
  `jsonFromString`, mirroring the RFC 8259 grammar that serde_json accepts:
  leading/trailing whitespace around the top-level value, rejection of
  leading zeros, of raw control characters in strings and of lone
  surrogates, escape sequences including `\uXXXX` surrogate pairs, and
  last-one-wins duplicate object keys.
* Rust `u64`/`u32` become `Nat`; none of the verified code can overflow
  them.  Rust `str::trim` and `to_ascii_uppercase` become the structural
  `rustTrim` and `strToAsciiUpper` below.
* Fallible Rust functions returning `Result<T, CliError>` become
  `Except CliError T`.
-/

namespace ReclaimCli

/-- A single apostrophe, used to reproduce quoted error-message text. -/
def sq : String := (Char.ofNat 39).toString

/-- Embedding of `serde_json::Value` (see the module conventions above). -/
inductive Json where
  | null
  | bool (b : Bool)
  | num (n : Int)
  | fnum (tok : String)
  | str (s : String)
  | arr (elems : List Json)
  | obj (fields : List (String × Json))

/-- Embedding of `serde_json::Map<String, Value>` as an association list. -/
abbrev JMap := List (String × Json)

/-- Lookup in a `JMap` (first binding wins; maps built by `mapInsert` have
distinct keys, so there is at most one). -/
def mapGet (m : JMap) (k : String) : Option Json :=
  match m with
  | [] => none
  | (k', v) :: rest => if k' = k then some v else mapGet rest k

/-- `serde_json::Map::insert`: replace the binding of an existing key,
otherwise add the binding. -/
def mapInsert (m : JMap) (k : String) (v : Json) : JMap :=
  match m with
  | [] => [(k, v)]
  | (k', v') :: rest =>
      if k' = k then (k, v) :: rest else (k', v') :: mapInsert rest k v

/-- `merge_object_fields` (src/main.rs:757-761): insert every update into the
target, so updates fully overwrite colliding keys. -/
def merge_object_fields (target : JMap) (updates : JMap) : JMap :=
  updates.foldl (fun acc kv => mapInsert acc kv.1 kv.2) target

/-- The keys of a `JMap`, in order. -/
def mapKeys (m : JMap) : List String := m.map Prod.fst

/-- `char::is_whitespace`: the Unicode `White_Space` property, as used by
`str::trim`. -/
def isRustWhitespace (c : Char) : Bool :=
  c = ' ' || c = '\t' || c = '\n' || c = '\r' ||
  c.toNat = 0x0B || c.toNat = 0x0C || c.toNat = 0x85 || c.toNat = 0xA0 ||
  c.toNat = 0x1680 || (0x2000 ≤ c.toNat && c.toNat ≤ 0x200A) ||
  c.toNat = 0x2028 || c.toNat = 0x2029 || c.toNat = 0x202F ||
  c.toNat = 0x205F || c.toNat = 0x3000

/-- `str::trim`: drop whitespace from both ends. -/
def rustTrim (s : String) : String :=
  ⟨((s.toList.dropWhile isRustWhitespace).reverse.dropWhile isRustWhitespace).reverse⟩

/-- `u8::to_ascii_uppercase` on one character: only ASCII letters are
upcased. -/
def asciiUpper (c : Char) : Char :=
  if 'a' ≤ c && c ≤ 'z' then Char.ofNat (c.toNat - 32) else c

/-- `str::to_ascii_uppercase`. -/
def strToAsciiUpper (s : String) : String := ⟨s.toList.map asciiUpper⟩

end ReclaimCli

namespace ReclaimCli

/-! ### The JSON text parser (embedding of `serde_json::from_str`) -/

/-- JSON insignificant whitespace, as accepted by serde_json. -/
def isJsonWs (c : Char) : Bool :=
  c = ' ' || c = '\t' || c = '\n' || c = '\r'

/-- Drop leading JSON whitespace. -/
def dropWs : List Char → List Char
  | [] => []
  | c :: cs => if isJsonWs c then dropWs cs else c :: cs

/-- Decimal digit test over the JSON grammar. -/
def isDigitChar (c : Char) : Bool := '0' ≤ c && c ≤ '9'

/-- Split off a maximal run of decimal digits. -/
def spanDigits : List Char → List Char × List Char
  | [] => ([], [])
  | c :: cs =>
      if isDigitChar c then
        let (ds, rest) := spanDigits cs
        (c :: ds, rest)
      else ([], c :: cs)

/-- Numeric value of a digit run. -/
def digitsVal (ds : List Char) : Nat :=
  ds.foldl (fun acc c => 10 * acc + (c.toNat - 48)) 0

/-- Value of one hexadecimal digit, if it is one. -/
def hexDigitVal (c : Char) : Option Nat :=
  if '0' ≤ c && c ≤ '9' then some (c.toNat - 48)
  else if 'a' ≤ c && c ≤ 'f' then some (c.toNat - 87)
  else if 'A' ≤ c && c ≤ 'F' then some (c.toNat - 55)
  else none

/-- Value of a four-hex-digit escape payload. -/
def hexQuad (a b c d : Char) : Option Nat := do
  let va ← hexDigitVal a
  let vb ← hexDigitVal b
  let vc ← hexDigitVal c
  let vd ← hexDigitVal d
  some (((va * 16 + vb) * 16 + vc) * 16 + vd)

/-- Single-character escape sequences accepted inside JSON strings. -/
def simpleEscape : Char → Option Char
  | '"' => some '"'
  | '\\' => some '\\'
  | '/' => some '/'
  | 'b' => some (Char.ofNat 8)
  | 'f' => some (Char.ofNat 12)
  | 'n' => some '\n'
  | 'r' => some '\r'
  | 't' => some '\t'
  | _ => none

/-- Body of a JSON string after the opening quote: serde_json rejects raw
control characters, unknown escapes, lone surrogates and unterminated
strings; `\uXXXX` escapes combine surrogate pairs. -/
def scanStringBody (acc : List Char) : List Char → Option (String × List Char)
  | [] => none
  | '"' :: rest => some (⟨acc.reverse⟩, rest)
  | '\\' :: 'u' :: a :: b :: c :: d :: rest =>
      match hexQuad a b c d with
      | none => none
      | some code =>
          if 0xD800 ≤ code && code ≤ 0xDBFF then
            match rest with
            | '\\' :: 'u' :: a2 :: b2 :: c2 :: d2 :: rest2 =>
                match hexQuad a2 b2 c2 d2 with
                | none => none
                | some low =>
                    if 0xDC00 ≤ low && low ≤ 0xDFFF then
                      let cp := 0x10000 + (code - 0xD800) * 0x400 + (low - 0xDC00)
                      scanStringBody (Char.ofNat cp :: acc) rest2
                    else none
            | _ => none
          else if 0xDC00 ≤ code && code ≤ 0xDFFF then none
          else scanStringBody (Char.ofNat code :: acc) rest
  | '\\' :: e :: rest =>
      match simpleEscape e with
      | some ch => scanStringBody (ch :: acc) rest
      | none => none
  | c :: rest =>
      if c.toNat < 0x20 then none else scanStringBody (c :: acc) rest

/-- A JSON number token: optional minus, integer part with no leading zero,
optional fraction, optional exponent.  Integer-form tokens produce
`Json.num`; tokens with a fraction or exponent keep their text in
`Json.fnum`. -/
def scanNumber (cs : List Char) : Option (Json × List Char) :=
  let (neg, cs1) := match cs with
    | '-' :: r => (true, r)
    | _ => (false, cs)
  match cs1 with
  | [] => none
  | c :: r =>
      if !isDigitChar c then none
      else
        let (intDigits, cs2) :=
          if c = '0' then ([c], r)
          else
            let (ds, rest) := spanDigits r
            (c :: ds, rest)
        let (fracDigits, cs3) := match cs2 with
          | '.' :: r2 =>
              let (ds, rest) := spanDigits r2
              (ds, rest)
          | _ => ([], cs2)
        let fracPresent := match cs2 with
          | '.' :: _ => true
          | _ => false
        if fracPresent && fracDigits.isEmpty then none
        else
          let expParse : Option (List Char × List Char) := match cs3 with
            | 'e' :: r3 =>
                let (sgn, r4) := match r3 with
                  | '+' :: r5 => (['+'], r5)
                  | '-' :: r5 => (['-'], r5)
                  | _ => ([], r3)
                let (ds, rest) := spanDigits r4
                if ds.isEmpty then none else some ('e' :: sgn ++ ds, rest)
            | 'E' :: r3 =>
                let (sgn, r4) := match r3 with
                  | '+' :: r5 => (['+'], r5)
                  | '-' :: r5 => (['-'], r5)
                  | _ => ([], r3)
                let (ds, rest) := spanDigits r4
                if ds.isEmpty then none else some ('E' :: sgn ++ ds, rest)
            | _ => some ([], cs3)
          match expParse with
          | none => none
          | some (expChars, cs4) =>
              if fracPresent || !expChars.isEmpty then
                let tok : List Char :=
                  (if neg then ['-'] else []) ++ intDigits ++
                    (if fracPresent then '.' :: fracDigits else []) ++ expChars
                some (Json.fnum ⟨tok⟩, cs4)
              else
                let v : Int := Int.ofNat (digitsVal intDigits)
                some (Json.num (if neg then -v else v), cs4)

mutual

/-- One JSON value (fuel-driven recursive descent). -/
def scanValue : Nat → List Char → Option (Json × List Char)
  | 0, _ => none
  | fuel + 1, cs =>
      match dropWs cs with
      | 'n' :: 'u' :: 'l' :: 'l' :: rest => some (Json.null, rest)
      | 't' :: 'r' :: 'u' :: 'e' :: rest => some (Json.bool true, rest)
      | 'f' :: 'a' :: 'l' :: 's' :: 'e' :: rest => some (Json.bool false, rest)
      | '"' :: rest =>
          match scanStringBody [] rest with
          | some (s, rest') => some (Json.str s, rest')
          | none => none
      | '[' :: rest =>
          match dropWs rest with
          | ']' :: rest' => some (Json.arr [], rest')
          | more => scanElements fuel more []
      | '{' :: rest =>
          match dropWs rest with
          | '}' :: rest' => some (Json.obj [], rest')
          | more => scanMembers fuel more []
      | other => scanNumber other

/-- Comma-separated array elements up to the closing bracket (the element
list is accumulated in reverse). -/
def scanElements : Nat → List Char → List Json → Option (Json × List Char)
  | 0, _, _ => none
  | fuel + 1, cs, acc =>
      match scanValue fuel cs with
      | none => none
      | some (v, rest) =>
          match dropWs rest with
          | ',' :: rest' => scanElements fuel rest' (v :: acc)
          | ']' :: rest' => some (Json.arr (v :: acc).reverse, rest')
          | _ => none

/-- Comma-separated object members up to the closing brace; duplicate keys
follow `serde_json::Map::insert` (last one wins). -/
def scanMembers : Nat → List Char → JMap → Option (Json × List Char)
  | 0, _, _ => none
  | fuel + 1, cs, acc =>
      match dropWs cs with
      | '"' :: rest =>
          match scanStringBody [] rest with
          | none => none
          | some (key, rest1) =>
              match dropWs rest1 with
              | ':' :: rest2 =>
                  match scanValue fuel rest2 with
                  | none => none
                  | some (v, rest3) =>
                      match dropWs rest3 with
                      | ',' :: rest4 => scanMembers fuel rest4 (mapInsert acc key v)
                      | '}' :: rest4 => some (Json.obj (mapInsert acc key v), rest4)
                      | _ => none
              | _ => none
      | _ => none

end

/-- Embedding of `serde_json::from_str::<Value>`: one JSON value surrounded
by optional whitespace, nothing else. -/
def jsonFromString (s : String) : Option Json :=
  match scanValue (2 * s.length + 2) s.toList with
  | some (v, rest) =>
      match dropWs rest with
      | [] => some v
      | _ => none
  | none => none

end ReclaimCli

namespace ReclaimCli

/-! ### Errors (embedding of `src/error.rs`) -/

/-- Embedding of `CliError` (src/error.rs:4-25).  In messages produced by
library code (serde_json parse errors), the library's error description is
replaced by the fixed placeholder `<parse error>`; no verified code inspects
that part of the text. -/
inductive CliError where
  | missingApiKey
  | invalidBaseUrl (url : String)
  | invalidInput (message : String) (hint : Option String)
  | transport (message : String) (hint : Option String)
  | api (status : Nat) (message : String) (hint : Option String)
  | responseParse (message : String) (hint : Option String)
  | output (message : String)

/-- Whether an error is the caller-fixable Invalid-Input variant. -/
def CliError.isInvalidInput : CliError → Bool
  | CliError.invalidInput _ _ => true
  | _ => false

/-- The message text of an error, as rendered by `Display` without the
status prefix. -/
def CliError.messageText : CliError → String
  | CliError.missingApiKey => "Missing Reclaim API key."
  | CliError.invalidBaseUrl url => "Invalid base URL: " ++ url
  | CliError.invalidInput message _ => message
  | CliError.transport message _ => message
  | CliError.api _ message _ => message
  | CliError.responseParse message _ => message
  | CliError.output message => message

/-! ### `--set` and `--json` argument parsing (src/main.rs:691-755) -/

/-- `str::split_once`: split at the first occurrence of the separator. -/
def splitOnceChars (sep : Char) : List Char → Option (List Char × List Char)
  | [] => none
  | c :: cs =>
      if c = sep then some ([], cs)
      else (splitOnceChars sep cs).map (fun p => (c :: p.1, p.2))

/-- `str::split_once` on strings. -/
def splitOnceStr (s : String) (sep : Char) : Option (String × String) :=
  (splitOnceChars sep s.toList).map (fun p => (⟨p.1⟩, ⟨p.2⟩))

/-- `parse_set_value` (src/main.rs:753-755): a `--set` value is the parsed
JSON literal when it parses, the literal string otherwise. -/
def parse_set_value (raw_value : String) : Json :=
  (jsonFromString raw_value).getD (Json.str raw_value)

/-- `parse_set_entry` (src/main.rs:732-751). -/
def parse_set_entry (entry : String) : Except CliError (String × Json) :=
  match splitOnceStr entry '=' with
  | none =>
      Except.error (CliError.invalidInput
        ("Invalid --set value " ++ sq ++ entry ++ sq ++ ". Expected KEY=VALUE.")
        (some "Examples: --set priority=P4 --set snoozeUntil=2026-02-25T17:00:00Z"))
  | some (raw_key, raw_value) =>
      let key := rustTrim raw_key
      if key.isEmpty then
        Except.error (CliError.invalidInput
          ("Invalid --set value " ++ sq ++ entry ++ sq ++ ": key cannot be empty.")
          (some "Use a non-empty key, e.g. --set priority=P4"))
      else
        Except.ok (key, parse_set_value (rustTrim raw_value))

/-- `parse_set_entries` (src/main.rs:723-730): parse each entry in order,
stopping at the first failure, inserting into one map. -/
def parse_set_entries (entries : List String) : Except CliError JMap :=
  entries.foldlM
    (fun updates entry => do
      let kv ← parse_set_entry entry
      pure (mapInsert updates kv.1 kv.2))
    ([] : JMap)

/-- Hint attached to every `parse_json_object_argument` failure. -/
def jsonObjectHint (flag_name : String) : String :=
  "Pass " ++ flag_name ++ " with a JSON object, e.g. " ++ flag_name ++
    " \x27\x7b\x22priority\x22:\x22P4\x22\x7d\x27."

/-- `parse_json_object_argument` (src/main.rs:691-721). -/
def parse_json_object_argument (raw_json : String) (flag_name : String) :
    Except CliError JMap :=
  if (rustTrim raw_json).isEmpty then
    Except.error (CliError.invalidInput
      ("Invalid " ++ flag_name ++ " value: it cannot be empty.")
      (some (jsonObjectHint flag_name)))
  else
    match jsonFromString (rustTrim raw_json) with
    | none =>
        Except.error (CliError.invalidInput
          ("Invalid " ++ flag_name ++ " JSON: <parse error>")
          (some (jsonObjectHint flag_name)))
    | some (Json.obj fields) => Except.ok fields
    | some _ =>
        Except.error (CliError.invalidInput
          ("Invalid " ++ flag_name ++ " value: expected a JSON object.")
          (some (jsonObjectHint flag_name)))

/-! ### The task domain model (src/reclaim_api.rs:86-99) -/

/-- Embedding of `Task`: strongly-typed known fields plus the flattened
`extra` map of unmodeled fields (the Rust `HashMap` becomes an association
list; only its key/value content matters to the verified code). -/
structure Task where
  id : Nat
  title : String
  status : Option String
  due : Option String
  priority : Option String
  notes : Option String
  deleted : Bool
  extra : JMap

/-- Known (non-flattened) serialized field names of `Task`. -/
def taskKnownFields : List String :=
  ["id", "title", "status", "due", "priority", "notes", "deleted"]

/-- Serialization of an optional string field: `Task` has no
`skip_serializing_if`, so `None` serializes as JSON null. -/
def optStrJson : Option String → Json
  | some s => Json.str s
  | none => Json.null

/-- `serde_json::to_value` on `Task`: the named fields in declaration order,
then the flattened `extra` entries, later entries overwriting colliding map
keys (serde_json map serialization is last-one-wins). -/
def taskToJsonObj (t : Task) : JMap :=
  merge_object_fields
    [("id", Json.num (Int.ofNat t.id)), ("title", Json.str t.title),
     ("status", optStrJson t.status), ("due", optStrJson t.due),
     ("priority", optStrJson t.priority), ("notes", optStrJson t.notes),
     ("deleted", Json.bool t.deleted)]
    t.extra

/-- Deserialization of one optional string field: missing and null are
`None`, a string is `Some`, any other shape is a type error. -/
def decodeOptStrField (m : JMap) (k : String) : Option (Option String) :=
  match mapGet m k with
  | none => some none
  | some Json.null => some none
  | some (Json.str s) => some (some s)
  | some _ => none

/-- Deserialization of `Task` from a JSON object: known fields are decoded
by name (`deleted` has `#[serde(default)]`, so a missing `deleted` is
`false`), every other entry is captured verbatim into `extra` by the
`#[serde(flatten)]` map. -/
def taskFromJsonObj (m : JMap) : Option Task := do
  let id ← match mapGet m "id" with
    | some (Json.num n) => if 0 ≤ n then some n.toNat else none
    | _ => none
  let title ← match mapGet m "title" with
    | some (Json.str s) => some s
    | _ => none
  let status ← decodeOptStrField m "status"
  let due ← decodeOptStrField m "due"
  let priority ← decodeOptStrField m "priority"
  let notes ← decodeOptStrField m "notes"
  let deleted ← match mapGet m "deleted" with
    | none => some false
    | some (Json.bool b) => some b
    | some _ => none
  some { id := id, title := title, status := status, due := due,
         priority := priority, notes := notes, deleted := deleted,
         extra := m.filter (fun kv => !taskKnownFields.contains kv.1) }

/-! ### PUT and PATCH payload builders (src/main.rs:635-689) -/

/-- `PutArgs` (src/cli.rs:125-150). -/
structure PutArgs where
  task_id : Nat
  json : Option String
  set : List String
  notification_key : Option String

/-- `PatchArgs` (src/cli.rs:152-177). -/
structure PatchArgs where
  task_id : Nat
  json : Option String
  set : List String
  notification_key : Option String

/-- A network request issued while building a payload (the PUT builder may
issue a GET before constructing its payload). -/
inductive ApiCall where
  | getTask (task_id : Nat)

/-- `build_put_payload` (src/main.rs:635-667).  The transport is abstracted
as the `get_task` oracle; the second component of the result records the
network calls issued, in order.  `serde_json::to_value` on a `Task` always
yields an object, so the defensive non-object branch of the source is
unreachable in the model. -/
def build_put_payload (get_task : Nat → Except CliError Task) (args : PutArgs) :
    Except CliError Json × List ApiCall :=
  if args.json.isNone && args.set.isEmpty then
    (Except.error (CliError.invalidInput
      "PUT requires update data. Pass --json and/or one or more --set entries."
      (some ("Examples: --json \x27\x7b\x22title\x22:\x22Plan sprint\x22\x7d\x27" ++
        " or --set priority=P4"))), [])
  else
    let fetched : Except CliError JMap × List ApiCall :=
      match args.json with
      | some raw_json => (parse_json_object_argument raw_json "--json", [])
      | none =>
          match get_task args.task_id with
          | Except.error e => (Except.error e, [ApiCall.getTask args.task_id])
          | Except.ok existing =>
              (Except.ok (taskToJsonObj existing), [ApiCall.getTask args.task_id])
    match fetched with
    | (Except.error e, calls) => (Except.error e, calls)
    | (Except.ok payload, calls) =>
        match parse_set_entries args.set with
        | Except.error e => (Except.error e, calls)
        | Except.ok updates =>
            (Except.ok (Json.obj (merge_object_fields payload updates)), calls)

/-- The optional `--json` blob stage shared by the payload builders: parse
the blob when it is present, otherwise start from the empty object
(src/main.rs:670-673). -/
def json_blob_fields (json : Option String) : Except CliError JMap :=
  match json with
  | some raw_json => parse_json_object_argument raw_json "--json"
  | none => Except.ok []

/-- `build_patch_payload` (src/main.rs:669-689). -/
def build_patch_payload (args : PatchArgs) : Except CliError Json := do
  let payload ← json_blob_fields args.json
  let updates ← parse_set_entries args.set
  let payload := merge_object_fields payload updates
  if payload.isEmpty then
    Except.error (CliError.invalidInput
      "PATCH requires at least one field update."
      (some ("Pass --json \x27\x7b\x22priority\x22:\x22P4\x22\x7d\x27" ++
        " or one/more --set key=value entries.")))
  else
    pure (Json.obj payload)

end ReclaimCli

namespace ReclaimCli

/-! ### CLI value enums (src/cli.rs:470-507, 280-310) -/

/-- `Priority` (src/cli.rs:470-479). -/
inductive Priority where
  | P1
  | P2
  | P3
  | P4

/-- `Priority::as_str` (src/cli.rs:482-489). -/
def Priority.as_str : Priority → String
  | Priority.P1 => "P1"
  | Priority.P2 => "P2"
  | Priority.P3 => "P3"
  | Priority.P4 => "P4"

/-- `EventCategory` (src/cli.rs:493-498). -/
inductive EventCategory where
  | Work
  | Personal

/-- `EventCategory::as_str` (src/cli.rs:500-507). -/
def EventCategory.as_str : EventCategory → String
  | EventCategory.Work => "WORK"
  | EventCategory.Personal => "PERSONAL"

/-- `EventTransparency` (src/cli.rs). -/
inductive EventTransparency where
  | Opaque
  | Transparent

/-- `EventTransparency::as_str`. -/
def EventTransparency.as_str : EventTransparency → String
  | EventTransparency.Opaque => "OPAQUE"
  | EventTransparency.Transparent => "TRANSPARENT"

/-- `EventVisibility` (src/cli.rs). -/
inductive EventVisibility where
  | Default
  | Public
  | Private

/-- `EventVisibility::as_str`. -/
def EventVisibility.as_str : EventVisibility → String
  | EventVisibility.Default => "DEFAULT"
  | EventVisibility.Public => "PUBLIC"
  | EventVisibility.Private => "PRIVATE"

/-! ### Event create payload builder (src/main.rs:356-465) -/

/-- `EventsCreateArgs` (src/cli.rs). -/
structure EventsCreateArgs where
  calendar_id : Nat
  title : String
  start : String
  «end» : String
  policy_id : String
  attendees : List String
  description : Option String
  location : Option String
  priority : Option Priority
  visibility : Option EventVisibility
  transparency : Option EventTransparency
  guests_can_modify : Bool
  guests_can_invite_others : Bool
  guests_can_see_other_guests : Bool
  json : Option String
  set : List String

/-- `.as_deref().map(str::trim).filter(|v| !v.is_empty())` on an optional
string. -/
def trimmedNonEmpty (value : Option String) : Option String :=
  (value.map rustTrim).filter (fun s => !s.isEmpty)

/-- The attendees array: trimmed, non-empty emails wrapped in objects
(src/main.rs:408-415). -/
def event_attendees (attendees : List String) : List Json :=
  ((attendees.map rustTrim).filter (fun e => !e.isEmpty)).map
    (fun e => Json.obj [("email", Json.str e)])

/-- The typed-flag stage of `build_event_create_request`
(src/main.rs:380-455): the `AddEventAction` map built from the command's own
flags, before the `--json` blob and `--set` overrides are merged. -/
def event_create_flags_map (args : EventsCreateArgs) : JMap :=
  let action : JMap := []
  let action := mapInsert action "type" (Json.str "AddEventAction")
  let action := mapInsert action "hash" (Json.str "")
  let action := mapInsert action "policyId" (Json.str (rustTrim args.policy_id))
  let action := mapInsert action "eventKey" (Json.str "")
  let action := mapInsert action "calendarId" (Json.num (Int.ofNat args.calendar_id))
  let action := mapInsert action "title" (Json.str args.title)
  let action := mapInsert action "dateRange" (Json.obj
    [("type", Json.str "FixedDateTimeRange"), ("start", Json.str (rustTrim args.start)),
     ("end", Json.str (rustTrim args.«end»))])
  let action := mapInsert action "guestsCanModify" (Json.bool args.guests_can_modify)
  let action := mapInsert action "guestsCanInviteOthers"
    (Json.bool args.guests_can_invite_others)
  let action := mapInsert action "guestsCanSeeOtherGuests"
    (Json.bool args.guests_can_see_other_guests)
  let action := mapInsert action "attendees" (Json.arr (event_attendees args.attendees))
  let action := match trimmedNonEmpty args.description with
    | some description => mapInsert action "description" (Json.str description)
    | none => action
  let action := match trimmedNonEmpty args.location with
    | some location => mapInsert action "location" (Json.str location)
    | none => action
  let action := match args.priority with
    | some priority => mapInsert action "priority" (Json.str priority.as_str)
    | none => action
  let action := match args.visibility with
    | some visibility => mapInsert action "visibility" (Json.str visibility.as_str)
    | none => action
  match args.transparency with
  | some transparency => mapInsert action "transparency" (Json.str transparency.as_str)
  | none => action

/-- `build_event_create_request` (src/main.rs:356-465): validate the time
range and policy id, build the flags map, merge the `--json` blob fields,
then merge the `--set` overrides, and wrap the action in the
`actionsTaken` envelope. -/
def build_event_create_request (args : EventsCreateArgs) : Except CliError Json := do
  if (rustTrim args.start).isEmpty || (rustTrim args.«end»).isEmpty then
    throw (CliError.invalidInput
      "Invalid event time range: --start and --end are required."
      (some ("Use ISO 8601 timestamps, e.g. --start 2026-02-21T18:30:00Z" ++
        " --end 2026-02-21T19:00:00Z")))
  if (rustTrim args.policy_id).isEmpty then
    throw (CliError.invalidInput
      "Invalid --policy-id value: it cannot be empty."
      (some ("Use a UUID, or omit --policy-id to use" ++
        " 00000000-0000-0000-0000-000000000000.")))
  let action := event_create_flags_map args
  let action ← match args.json with
    | some raw_json => do
        let updates ← parse_json_object_argument raw_json "--json"
        pure (merge_object_fields action updates)
    | none => pure action
  let updates ← parse_set_entries args.set
  let action := merge_object_fields action updates
  pure (Json.obj [("actionsTaken", Json.arr [Json.obj action])])

/-! ### Task creation validation (the `Command::Create` arm of `run`,
src/main.rs:210-296) -/

/-- `CreateArgs` (src/cli.rs:510-565). -/
structure CreateArgs where
  title : String
  notes : Option String
  priority : Option Priority
  due : Option String
  time_chunks_required : Option Nat
  event_category : EventCategory
  min_chunk_size : Option Nat
  max_chunk_size : Option Nat
  always_private : Bool

/-- `CreateTaskRequest` (src/reclaim_api.rs:64-84). -/
structure CreateTaskRequest where
  title : String
  notes : Option String
  priority : Option String
  due : Option String
  time_chunks_required : Option Nat
  min_chunk_size : Option Nat
  max_chunk_size : Option Nat
  event_category : Option String
  always_private : Option Bool

/-- The `Command::Create` arm of `run` up to the API call
(src/main.rs:210-296): validate `--due`, require `--time-chunks-required`
alongside chunk bounds, synthesize missing bounds (min = 1,
max = total), reject bounds exceeding the total and min exceeding max, and
assemble the `CreateTaskRequest`. -/
def build_create_task_request (args : CreateArgs) : Except CliError CreateTaskRequest := do
  if args.due.any (fun due => (rustTrim due).isEmpty) then
    throw (CliError.invalidInput
      "Invalid --due value: it cannot be empty."
      (some "Use ISO 8601, for example: --due 2026-02-19T15:00:00Z"))
  if (args.min_chunk_size.isSome || args.max_chunk_size.isSome) &&
      args.time_chunks_required.isNone then
    throw (CliError.invalidInput
      ("Invalid chunk options: --min-chunk-size/--max-chunk-size require" ++
        " --time-chunks-required.")
      (some ("Pass --time-chunks-required with chunk size options, e.g." ++
        " --time-chunks-required 4 --min-chunk-size 2 --max-chunk-size 4")))
  let bounds ← match args.time_chunks_required with
    | none => pure (args.min_chunk_size, args.max_chunk_size)
    | some total_chunks => do
        let min := args.min_chunk_size.getD 1
        let max := args.max_chunk_size.getD total_chunks
        if min > total_chunks then
          throw (CliError.invalidInput
            ("Invalid --min-chunk-size value: " ++ toString min ++
              " exceeds --time-chunks-required (" ++ toString total_chunks ++ ").")
            (some "Use a min chunk size less than or equal to --time-chunks-required."))
        if max > total_chunks then
          throw (CliError.invalidInput
            ("Invalid --max-chunk-size value: " ++ toString max ++
              " exceeds --time-chunks-required (" ++ toString total_chunks ++ ").")
            (some "Use a max chunk size less than or equal to --time-chunks-required."))
        pure (some min, some max)
  let (min_chunk_size, max_chunk_size) := bounds
  (match min_chunk_size, max_chunk_size with
   | some min, some max =>
       if min > max then
         throw (CliError.invalidInput
           ("Invalid chunk bounds: --min-chunk-size (" ++ toString min ++
             ") cannot exceed --max-chunk-size (" ++ toString max ++ ").")
           (some "Choose chunk sizes where min <= max.")
       )
       else pure ()
   | _, _ => pure ())
  pure { title := args.title, notes := args.notes,
         priority := args.priority.map Priority.as_str,
         due := args.due,
         time_chunks_required := args.time_chunks_required,
         min_chunk_size := min_chunk_size, max_chunk_size := max_chunk_size,
         event_category := some args.event_category.as_str,
         always_private := some args.always_private }

/-! ### Task list filtering and completion classification -/

/-- `TaskFilter` (src/reclaim_api.rs:48-52). -/
inductive TaskFilter where
  | Active
  | All

/-- `is_active_task` (src/reclaim_api.rs:464-466). -/
def is_active_task (task : Task) : Bool :=
  !task.deleted &&
    !(task.status == some "ARCHIVED" || task.status == some "CANCELLED")

/-- The client-side retention step of `list_tasks`
(src/reclaim_api.rs:305-313), applied to the decoded response of
`GET tasks`; the transport is abstracted as the `fetched` list. -/
def list_tasks (filter : TaskFilter) (fetched : List Task) : List Task :=
  match filter with
  | TaskFilter.Active => fetched.filter is_active_task
  | TaskFilter.All => fetched

/-- `status_indicates_completed` (src/main.rs:802-808). -/
def status_indicates_completed (status : Option String) : Bool :=
  match status with
  | none => false
  | some s =>
      let u := strToAsciiUpper s
      u = "COMPLETED" || u = "COMPLETE" || u = "DONE" || u = "FINISHED"

/-- `Value::as_bool`. -/
def jAsBool : Json → Option Bool
  | Json.bool b => some b
  | _ => none

/-- The `completionStatus` extension-field check of `task_is_completed`
(src/main.rs:786-792): the field is present, is a string, and matches the
completion synonyms. -/
def completion_status_signal (task : Task) : Bool :=
  match mapGet task.extra "completionStatus" with
  | some (Json.str s) => status_indicates_completed (some s)
  | _ => false

/-- The boolean extension-field check of `task_is_completed`
(src/main.rs:795-799): `completed` as a boolean when present, otherwise
`isComplete`, defaulting to `false`. -/
def completed_bool_signal (task : Task) : Bool :=
  (((mapGet task.extra "completed").bind jAsBool).orElse
    (fun _ => (mapGet task.extra "isComplete").bind jAsBool)).getD false

/-- `task_is_completed` (src/main.rs:781-800). -/
def task_is_completed (task : Task) : Bool :=
  if status_indicates_completed task.status then true
  else if completion_status_signal task then true
  else completed_bool_signal task

/-! ### API error message extraction (src/reclaim_api.rs:487-647) -/

/-- `Value::get` on a field name: object lookup, `None` on any other
shape. -/
def jGet (value : Json) (field : String) : Option Json :=
  match value with
  | Json.obj fields => mapGet fields field
  | _ => none

/-- The per-field candidate of `extract_api_message`
(src/reclaim_api.rs:563-568): the field's value when it is a string that is
non-empty after trimming. -/
def fieldCandidate (value : Json) (field : String) : Option String :=
  match jGet value field with
  | some (Json.str s) => if (rustTrim s).isEmpty then none else some (rustTrim s)
  | _ => none

/-- First hit of `f` over a list (the `for`-with-`return` loops of
`extract_errors_message`). -/
def firstSome {α β : Type} (xs : List α) (f : α → Option β) : Option β :=
  match xs with
  | [] => none
  | x :: rest =>
      match f x with
      | some y => some y
      | none => firstSome rest f

/-- One item of a nested `errors` array: a bare string, or an object's
`message` string field (src/reclaim_api.rs:587-594). -/
def errorsArrayItem (item : Json) : Option String :=
  match item with
  | Json.str s => some s
  | other =>
      match jGet other "message" with
      | some (Json.str s) => some s
      | _ => none

/-- One field of a nested `errors` object: a string message or an array of
items, prefixed with the field name (src/reclaim_api.rs:597-612). -/
def errorsObjEntry (field : String) (value : Json) : Option String :=
  match value with
  | Json.str s => some (field ++ ": " ++ s)
  | Json.arr entries =>
      (firstSome entries errorsArrayItem).map (fun m => field ++ ": " ++ m)
  | _ => none

/-- `extract_errors_message` (src/reclaim_api.rs:581-616). -/
def extract_errors_message (errors : Json) : Option String :=
  match errors with
  | Json.str s => some s
  | Json.arr items => firstSome items errorsArrayItem
  | Json.obj fields => firstSome fields (fun kv => errorsObjEntry kv.1 kv.2)
  | _ => none

/-- The ordered four-field scan of `extract_api_message`
(src/reclaim_api.rs:563-571). -/
def firstFieldCandidate (value : Json) : List String → Option String
  | [] => none
  | f :: fs =>
      match fieldCandidate value f with
      | some m => some m
      | none => firstFieldCandidate value fs

/-- `extract_api_message` (src/reclaim_api.rs:562-579). -/
def extract_api_message (value : Json) : Option String :=
  match firstFieldCandidate value ["message", "title", "error", "detail"] with
  | some m => some m
  | none =>
      ((jGet value "errors").bind extract_errors_message).bind (fun message =>
        let message := rustTrim message
        if message.isEmpty then none else some message)

/-- `DEBUG_SUMMARY_LIMIT` (src/reclaim_api.rs:11). -/
def DEBUG_SUMMARY_LIMIT : Nat := 512

/-- `truncate_debug_text` (src/reclaim_api.rs:637-647): cap at a character
budget with an explicit truncation marker. -/
def truncate_debug_text (input : String) (max_chars : Nat) : String :=
  if input.length ≤ max_chars then input
  else String.mk (input.toList.take max_chars) ++ "... <truncated>"

/-- The message-selection step of `parse_api_error`
(src/reclaim_api.rs:494-511): extract a message from the parsed JSON body,
fall back to the truncated raw body, fall back to the generic HTTP-status
message. -/
def api_error_message (status : Nat) (response_body : String) : String :=
  let body := rustTrim response_body
  let parsed_json := if body.isEmpty then none else jsonFromString body
  match parsed_json.bind extract_api_message with
  | some message => message
  | none =>
      if body.isEmpty then "Request failed with HTTP " ++ toString status ++ "."
      else truncate_debug_text body DEBUG_SUMMARY_LIMIT

/-- The binding that a `--set` entry list leaves for key `k`: the value of
the last entry whose (trimmed) key is `k`, scanning left to right. -/
def last_override_value (entries : List String) (k : String) : Option Json :=
  entries.foldl
    (fun cur entry =>
      match parse_set_entry entry with
      | Except.ok kv => if kv.1 = k then some kv.2 else cur
      | Except.error _ => cur)
    none

/-! ### Fixtures used by concrete witnesses and counterexamples -/

/-- A task whose `completed` extension field is `false` while `isComplete`
is `true`. -/
def shadowTask : Task :=
  { id := 7, title := "Ship release", status := some "OPEN", due := none,
    priority := none, notes := none, deleted := false,
    extra := [("completed", Json.bool false), ("isComplete", Json.bool true)] }

/-- PATCH arguments: no blob, one `--set priority=P4` override. -/
def patchSetOnlyArgs : PatchArgs := ⟨1, none, ["priority=P4"], none⟩

/-- PATCH arguments: the non-object blob `[]` plus the override `a=1`. -/
def patchBadBlobArgs : PatchArgs := ⟨1, some "[]", ["a=1"], none⟩

/-- A current task as the PUT builder's GET would return it. -/
def putFixtureTask : Task :=
  ⟨9, "Current title", some "NEW", none, none, none, false, [("zz", Json.bool true)]⟩

/-- A transport oracle that always returns `putFixtureTask`. -/
def putFixtureOracle : Nat → Except CliError Task := fun _ => Except.ok putFixtureTask

/-- PUT arguments: no blob, one `--set title=hello` override. -/
def putSetOnlyArgs : PutArgs := ⟨9, none, ["title=hello"], none⟩

/-- PUT arguments with neither blob nor overrides. -/
def putEmptyArgs : PutArgs := ⟨9, none, [], none⟩

/-- Create arguments: `--time-chunks-required 4` with no explicit bounds. -/
def createDefaultsArgs : CreateArgs :=
  ⟨"Plan Q1 roadmap", none, none, none, some 4, EventCategory.Work, none, none, true⟩

/-- Create arguments: `--min-chunk-size 5 --time-chunks-required 4`. -/
def createMinTooBigArgs : CreateArgs :=
  ⟨"Plan Q1 roadmap", none, none, none, some 4, EventCategory.Work, some 5, none, true⟩

/-- Event-create arguments combining typed flags, a `--json` blob that
overrides `title` and adds `x`, and `--set` overrides that override `title`
again and add `y`. -/
def eventsCreateFixtureArgs : EventsCreateArgs :=
  ⟨829105, "Team sync", "2026-02-21T18:30:00Z", "2026-02-21T19:00:00Z",
    "00000000-0000-0000-0000-000000000000", [], none, none, none, none, none,
    false, true, true,
    some "\x7b\x22title\x22:\x22B\x22,\x22x\x22:1\x7d",
    ["title=C", "y=2"]⟩

/-- A task with unmodeled extension fields that do not collide with known
field names. -/
def roundtripTask : Task :=
  ⟨42, "Quarterly planning", some "OPEN", none, some "P2", none, false,
    [("snoozeUntil", Json.str "2026-02-25T17:00:00Z"),
      ("timeChunksRequired", Json.num 4)]⟩

/-- A task whose extension map binds the known field name `title`. -/
def collidingTask : Task :=
  ⟨1, "a", none, none, none, none, false, [("title", Json.str "b")]⟩

end ReclaimCli

namespace ReclaimCli

/-! ### Association-map lemmas -/

theorem mapGet_mapInsert (m : JMap) (k k' : String) (v : Json) :
    mapGet (mapInsert m k v) k' = if k = k' then some v else mapGet m k' := by
  induction m with
  | nil => simp [mapInsert, mapGet]
  | cons hd tl ih =>
      obtain ⟨k0, v0⟩ := hd
      by_cases h0 : k0 = k
      · subst h0
        by_cases h1 : k0 = k' <;> simp [mapInsert, mapGet, h1]
      · by_cases h1 : k0 = k'
        · subst h1
          have hk : ¬ k = k0 := fun h => h0 h.symm
          simp [mapInsert, mapGet, h0, hk]
        · simp [mapInsert, mapGet, h0, h1, ih]

theorem mapKeys_nil : mapKeys ([] : JMap) = [] := rfl

theorem mapKeys_cons (kv : String × Json) (m : JMap) :
    mapKeys (kv :: m) = kv.1 :: mapKeys m := rfl

theorem mapKeys_append (m₁ m₂ : JMap) :
    mapKeys (m₁ ++ m₂) = mapKeys m₁ ++ mapKeys m₂ := by
  simp [mapKeys]

theorem mapGet_eq_none_iff (m : JMap) (k : String) :
    mapGet m k = none ↔ k ∉ mapKeys m := by
  induction m with
  | nil => simp [mapGet, mapKeys_nil]
  | cons hd tl ih =>
      obtain ⟨k0, v0⟩ := hd
      by_cases h0 : k0 = k
      · subst h0
        simp [mapGet, mapKeys_cons]
      · simp [mapGet, mapKeys_cons, h0, ih]
        exact fun _ h => h0 h.symm

theorem mapKeys_mapInsert (m : JMap) (k : String) (v : Json) :
    mapKeys (mapInsert m k v) =
      if k ∈ mapKeys m then mapKeys m else mapKeys m ++ [k] := by
  induction m with
  | nil => simp [mapInsert, mapKeys_cons, mapKeys_nil]
  | cons hd tl ih =>
      obtain ⟨k0, v0⟩ := hd
      by_cases h0 : k0 = k
      · subst h0
        simp [mapInsert, mapKeys_cons]
      · have hne : ¬ k = k0 := fun h => h0 h.symm
        by_cases h1 : k ∈ mapKeys tl
        · simp [mapInsert, h0, mapKeys_cons, ih, h1, hne]
        · simp [mapInsert, h0, mapKeys_cons, ih, h1, hne]

theorem nodup_mapKeys_mapInsert (m : JMap) (k : String) (v : Json)
    (h : (mapKeys m).Nodup) : (mapKeys (mapInsert m k v)).Nodup := by
  rw [mapKeys_mapInsert]
  by_cases h1 : k ∈ mapKeys m
  · simpa [h1] using h
  · simp [h1, List.nodup_append, h]

theorem merge_object_fields_nil (t : JMap) : merge_object_fields t [] = t := rfl

theorem merge_object_fields_cons (t : JMap) (kv : String × Json) (u : JMap) :
    merge_object_fields t (kv :: u) =
      merge_object_fields (mapInsert t kv.1 kv.2) u := rfl

theorem mapGet_merge_object_fields (u : JMap) (hu : (mapKeys u).Nodup) :
    ∀ (t : JMap) (k : String),
      mapGet (merge_object_fields t u) k =
        (mapGet u k).orElse (fun _ => mapGet t k) := by
  induction u with
  | nil => intro t k; simp [merge_object_fields_nil, mapGet, Option.orElse]
  | cons hd tl ih =>
      intro t k
      obtain ⟨k0, v0⟩ := hd
      rw [merge_object_fields_cons]
      rw [mapKeys_cons] at hu
      have htl : (mapKeys tl).Nodup := (List.nodup_cons.mp hu).2
      have hk0 : k0 ∉ mapKeys tl := (List.nodup_cons.mp hu).1
      rw [ih htl]
      by_cases h0 : k0 = k
      · subst h0
        have hnone : mapGet tl k0 = none := (mapGet_eq_none_iff tl k0).mpr hk0
        simp [mapGet, hnone, mapGet_mapInsert, Option.orElse]
      · simp [mapGet, h0, mapGet_mapInsert, Option.orElse]

theorem mapInsert_of_not_mem (m : JMap) (k : String) (v : Json)
    (h : k ∉ mapKeys m) : mapInsert m k v = m ++ [(k, v)] := by
  induction m with
  | nil => simp [mapInsert]
  | cons hd tl ih =>
      obtain ⟨k0, v0⟩ := hd
      rw [mapKeys_cons] at h
      have h0 : k0 ≠ k := fun he => h (he ▸ List.mem_cons_self k0 (mapKeys tl))
      have htl : k ∉ mapKeys tl := fun hm => h (List.mem_cons_of_mem _ hm)
      simp [mapInsert, h0, ih htl]

theorem merge_object_fields_eq_append (u : JMap) :
    ∀ (t : JMap), (∀ key ∈ mapKeys u, key ∉ mapKeys t) → (mapKeys u).Nodup →
      merge_object_fields t u = t ++ u := by
  induction u with
  | nil => intro t _ _; simp [merge_object_fields_nil]
  | cons hd tl ih =>
      intro t hdisj hu
      obtain ⟨k0, v0⟩ := hd
      rw [mapKeys_cons] at hdisj hu
      have hk0t : k0 ∉ mapKeys t := hdisj k0 (List.mem_cons_self _ _)
      rw [merge_object_fields_cons, mapInsert_of_not_mem t k0 v0 hk0t]
      have htl : (mapKeys tl).Nodup := (List.nodup_cons.mp hu).2
      have hk0tl : k0 ∉ mapKeys tl := (List.nodup_cons.mp hu).1
      rw [ih (t ++ [(k0, v0)]) ?_ htl]
      · simp
      · intro key hkey
        rw [mapKeys_append]
        simp only [List.mem_append]
        rintro (hkt | hk1)
        · exact hdisj key (List.mem_cons_of_mem _ hkey) hkt
        · have hkk0 : key = k0 := by
            simpa [mapKeys_cons, mapKeys_nil] using hk1
          exact hk0tl (hkk0 ▸ hkey)

theorem mapInsert_ne_nil (m : JMap) (k : String) (v : Json) :
    mapInsert m k v ≠ [] := by
  cases m with
  | nil => simp [mapInsert]
  | cons hd tl =>
      obtain ⟨k0, v0⟩ := hd
      by_cases h0 : k0 = k <;> simp [mapInsert, h0]

theorem merge_object_fields_ne_nil_left (u : JMap) :
    ∀ (t : JMap), t ≠ [] → merge_object_fields t u ≠ [] := by
  induction u with
  | nil => intro t ht; simpa [merge_object_fields_nil] using ht
  | cons hd tl ih =>
      intro t _
      rw [merge_object_fields_cons]
      exact ih _ (mapInsert_ne_nil t hd.1 hd.2)

theorem merge_object_fields_ne_nil_right (t u : JMap) (hu : u ≠ []) :
    merge_object_fields t u ≠ [] := by
  cases u with
  | nil => exact absurd rfl hu
  | cons hd tl =>
      rw [merge_object_fields_cons]
      exact merge_object_fields_ne_nil_left tl _ (mapInsert_ne_nil t hd.1 hd.2)

/-! ### `--set` accumulation lemmas -/

theorem parse_set_entries_go_ok (entries : List String) :
    ∀ (acc m : JMap),
      entries.foldlM
        (fun updates entry => do
          let kv ← parse_set_entry entry
          pure (mapInsert updates kv.1 kv.2)) acc = Except.ok m →
      (((mapKeys acc).Nodup → (mapKeys m).Nodup) ∧
        ∀ k, mapGet m k =
          entries.foldl
            (fun cur entry =>
              match parse_set_entry entry with
              | Except.ok kv => if kv.1 = k then some kv.2 else cur
              | Except.error _ => cur)
            (mapGet acc k)) := by
  induction entries with
  | nil =>
      intro acc m h
      simp only [List.foldlM_nil, pure, Except.pure] at h
      cases h
      exact ⟨fun hn => hn, fun k => by simp⟩
  | cons e es ih =>
      intro acc m h
      rw [List.foldlM_cons] at h
      cases hpe : parse_set_entry e with
      | error err =>
          rw [hpe] at h
          simp only [bind, Except.bind] at h
          exact Except.noConfusion h
      | ok kv =>
          rw [hpe] at h
          simp only [bind, Except.bind, pure, Except.pure] at h
          obtain ⟨hnodup, hget⟩ := ih (mapInsert acc kv.1 kv.2) m h
          refine ⟨fun hacc => hnodup (nodup_mapKeys_mapInsert _ _ _ hacc), fun k => ?_⟩
          rw [List.foldl_cons, hget k, mapGet_mapInsert, hpe]

theorem parse_set_entries_nodup (entries : List String) (m : JMap)
    (h : parse_set_entries entries = Except.ok m) : (mapKeys m).Nodup := by
  unfold parse_set_entries at h
  exact (parse_set_entries_go_ok entries [] m h).1 (by simp [mapKeys_nil])

theorem parse_set_entries_get (entries : List String) (m : JMap)
    (h : parse_set_entries entries = Except.ok m) (k : String) :
    mapGet m k = last_override_value entries k := by
  unfold parse_set_entries at h
  have hg := (parse_set_entries_go_ok entries [] m h).2 k
  simpa [last_override_value, mapGet] using hg

end ReclaimCli

namespace ReclaimCli

/-! ### Parser invariants: parsed objects have distinct keys -/

theorem scanNumber_shape (cs : List Char) (v : Json) (rest : List Char)
    (h : scanNumber cs = some (v, rest)) :
    (∃ n, v = Json.num n) ∨ (∃ t, v = Json.fnum t) := by
  unfold scanNumber at h
  simp only at h
  repeat' split at h
  all_goals (first
    | exact Option.noConfusion h
    | (obtain ⟨hv, hr⟩ := Prod.mk.injEq .. ▸ Option.some.inj h
       first
       | exact Or.inr ⟨_, hv.symm⟩
       | exact Or.inl ⟨_, hv.symm⟩))

end ReclaimCli

namespace ReclaimCli

theorem scanElements_arr (fuel : Nat) :
    ∀ cs acc v rest, scanElements fuel cs acc = some (v, rest) →
      ∃ es, v = Json.arr es := by
  induction fuel with
  | zero =>
      intro cs acc v rest h
      simp only [scanElements] at h
      exact Option.noConfusion h
  | succ fuel ih =>
      intro cs acc v rest h
      simp only [scanElements] at h
      repeat' split at h
      all_goals first
        | exact Option.noConfusion h
        | exact ih _ _ _ _ h
        | (obtain ⟨hv, hr⟩ := Prod.mk.injEq .. ▸ Option.some.inj h
           exact ⟨_, hv.symm⟩)

theorem scanMembers_obj (fuel : Nat) :
    ∀ cs acc v rest, scanMembers fuel cs acc = some (v, rest) →
      (mapKeys acc).Nodup → ∃ m, v = Json.obj m ∧ (mapKeys m).Nodup := by
  induction fuel with
  | zero =>
      intro cs acc v rest h _
      simp only [scanMembers] at h
      exact Option.noConfusion h
  | succ fuel ih =>
      intro cs acc v rest h hacc
      simp only [scanMembers] at h
      repeat' split at h
      all_goals first
        | exact Option.noConfusion h
        | exact ih _ _ _ _ h (nodup_mapKeys_mapInsert _ _ _ hacc)
        | (obtain ⟨hv, hr⟩ := Prod.mk.injEq .. ▸ Option.some.inj h
           exact ⟨_, hv.symm, nodup_mapKeys_mapInsert _ _ _ hacc⟩)

theorem scanValue_obj (fuel : Nat) (cs : List Char) (m : JMap) (rest : List Char)
    (h : scanValue fuel cs = some (Json.obj m, rest)) : (mapKeys m).Nodup := by
  cases fuel with
  | zero =>
      simp only [scanValue] at h
      exact Option.noConfusion h
  | succ fuel =>
      simp only [scanValue] at h
      repeat' split at h
      all_goals first
        | exact Option.noConfusion h
        | (obtain ⟨es, hes⟩ := scanElements_arr fuel _ _ _ _ h
           exact Json.noConfusion hes)
        | (obtain ⟨m', hm', hnod⟩ := scanMembers_obj fuel _ _ _ _ h (by simp [mapKeys_nil])
           exact (Json.obj.inj hm').symm ▸ hnod)
        | (rcases scanNumber_shape _ _ _ h with ⟨n, hn⟩ | ⟨t, ht⟩
           · exact Json.noConfusion hn
           · exact Json.noConfusion ht)
        | (obtain ⟨h1, h2⟩ := Prod.mk.injEq .. ▸ Option.some.inj h
           first
           | exact Json.noConfusion h1
           | (obtain hml := Json.obj.inj h1
              simp [← hml, mapKeys_nil]))

theorem jsonFromString_obj_nodup (s : String) (m : JMap)
    (h : jsonFromString s = some (Json.obj m)) : (mapKeys m).Nodup := by
  unfold jsonFromString at h
  repeat' split at h
  all_goals first
    | exact Option.noConfusion h
    | (rename_i o v rest heq1 x2 heq2
       have hv := Option.some.inj h
       subst hv
       exact scanValue_obj _ _ _ _ heq1)

theorem parse_json_object_argument_nodup (raw_json flag_name : String) (m : JMap)
    (h : parse_json_object_argument raw_json flag_name = Except.ok m) :
    (mapKeys m).Nodup := by
  unfold parse_json_object_argument at h
  repeat' split at h
  all_goals first
    | exact Except.noConfusion h
    | (rename_i fields heq
       exact Except.ok.inj h ▸ jsonFromString_obj_nodup _ _ heq)

theorem json_blob_fields_nodup (json : Option String) (m : JMap)
    (h : json_blob_fields json = Except.ok m) : (mapKeys m).Nodup := by
  cases json with
  | none =>
      unfold json_blob_fields at h
      rw [← Except.ok.inj h]
      simp [mapKeys_nil]
  | some raw_json => exact parse_json_object_argument_nodup raw_json "--json" m h

end ReclaimCli

namespace ReclaimCli

/-! ### Supporting lemmas for the claim theorems -/

theorem status_indicates_completed_iff (o : Option String) :
    status_indicates_completed o = true ↔
      ∃ s, o = some s ∧
        strToAsciiUpper s ∈ (["COMPLETED", "COMPLETE", "DONE", "FINISHED"] : List String) := by
  cases o with
  | none => simp [status_indicates_completed]
  | some s => simp [status_indicates_completed, or_assoc]

theorem last_override_value_isSome (k : String) (es : List String) :
    ∀ init : Option Json,
      ((es.foldl
        (fun cur entry =>
          match parse_set_entry entry with
          | Except.ok kv => if kv.1 = k then some kv.2 else cur
          | Except.error _ => cur) init).isSome = true ↔
        (init.isSome = true ∨ ∃ e ∈ es, ∃ v, parse_set_entry e = Except.ok (k, v))) := by
  induction es with
  | nil => intro init; simp
  | cons e es ih =>
      intro init
      rw [List.foldl_cons, ih]
      cases hpe : parse_set_entry e with
      | error err => simp [hpe]
      | ok kv =>
          by_cases hk : kv.1 = k
          · subst hk
            simp [hpe]
            exact Or.inr (Or.inl ⟨kv.2, rfl⟩)
          · have hfalse : ∀ v : Json, ¬ kv = (k, v) := fun v hv => hk (by rw [hv])
            simp [hpe, hk, hfalse]

end ReclaimCli

namespace ReclaimCli

theorem completion_status_signal_iff (t : Task) :
    completion_status_signal t = true ↔
      ∃ s, mapGet t.extra "completionStatus" = some (Json.str s) ∧
        strToAsciiUpper s ∈ (["COMPLETED", "COMPLETE", "DONE", "FINISHED"] : List String) := by
  unfold completion_status_signal
  rcases h : mapGet t.extra "completionStatus" with _ | v
  · simp
  · cases v <;> simp [status_indicates_completed_iff]

theorem completed_bool_signal_iff (t : Task) :
    completed_bool_signal t = true ↔
      (mapGet t.extra "completed" = some (Json.bool true) ∨
        ((∀ b, mapGet t.extra "completed" ≠ some (Json.bool b)) ∧
          mapGet t.extra "isComplete" = some (Json.bool true))) := by
  unfold completed_bool_signal
  rcases hc : mapGet t.extra "completed" with _ | vc
  · rcases hic : mapGet t.extra "isComplete" with _ | vi
    · simp [jAsBool, Option.orElse]
    · cases vi <;> simp [jAsBool, Option.orElse]
  · cases vc with
    | bool b => cases b <;> simp [jAsBool, Option.orElse]
    | _ =>
        rcases hic : mapGet t.extra "isComplete" with _ | vi
        · simp [jAsBool, Option.orElse]
        · cases vi <;> simp [jAsBool, Option.orElse]

end ReclaimCli

namespace ReclaimCli

/-- C4 (amended): a fetched task is classified completed iff its status is a
completion synonym (ASCII-case-insensitively), or its `completionStatus`
extension field is a string matching the same synonyms, or its `completed`
extension field is the boolean `true`, or — only when `completed` is absent
or not a boolean — its `isComplete` extension field is the boolean `true`.
(A boolean `completed` field shadows `isComplete`: `completed = false`
classifies the task open even when `isComplete = true`.) -/
theorem task_is_completed_spec (t : Task) :
    task_is_completed t = true ↔
      ((∃ s, t.status = some s ∧
          strToAsciiUpper s ∈ (["COMPLETED", "COMPLETE", "DONE", "FINISHED"] : List String)) ∨
        (∃ s, mapGet t.extra "completionStatus" = some (Json.str s) ∧
          strToAsciiUpper s ∈ (["COMPLETED", "COMPLETE", "DONE", "FINISHED"] : List String)) ∨
        mapGet t.extra "completed" = some (Json.bool true) ∨
        ((∀ b, mapGet t.extra "completed" ≠ some (Json.bool b)) ∧
          mapGet t.extra "isComplete" = some (Json.bool true))) := by
  have hsplit : task_is_completed t = true ↔
      (status_indicates_completed t.status = true ∨
        completion_status_signal t = true ∨ completed_bool_signal t = true) := by
    unfold task_is_completed
    by_cases h1 : status_indicates_completed t.status <;>
      by_cases h2 : completion_status_signal t <;> simp [h1, h2]
  rw [hsplit, status_indicates_completed_iff, completion_status_signal_iff,
    completed_bool_signal_iff]

/-- C4 counterexample: a task with extension fields `completed = false` and
`isComplete = true` is classified open, although the claim's disjunction
(`completed` or `isComplete` true) would classify it completed. -/
theorem task_is_completed_counterexample :
    task_is_completed shadowTask = false ∧
    mapGet shadowTask.extra "isComplete" = some (Json.bool true) :=
  ⟨rfl, rfl⟩

/-- C10: for every `--set` entry list that parses, the built override map
has each key at most once; a key's binding is the value of the last entry
with that (trimmed) key; and a key appears exactly when some entry parses
to it, independently of entry order. -/
theorem parse_set_entries_last_wins (entries : List String) (m : JMap) (k : String)
    (h : parse_set_entries entries = Except.ok m) :
    (mapKeys m).Nodup ∧
    mapGet m k = last_override_value entries k ∧
    ((mapGet m k).isSome = true ↔
      ∃ e ∈ entries, ∃ v, parse_set_entry e = Except.ok (k, v)) := by
  refine ⟨parse_set_entries_nodup entries m h, parse_set_entries_get entries m h k, ?_⟩
  rw [parse_set_entries_get entries m h k]
  simpa [last_override_value] using last_override_value_isSome k entries none

/-- C10 witness: `--set priority=P1 --set priority=P4` builds the map with
the single binding `priority = "P4"` (the last entry wins). -/
theorem parse_set_entries_last_wins_witness :
    (mapKeys [("priority", Json.str "P4")]).Nodup ∧
    mapGet [("priority", Json.str "P4")] "priority" =
      last_override_value ["priority=P1", "priority=P4"] "priority" ∧
    ((mapGet [("priority", Json.str "P4")] "priority").isSome = true ↔
      ∃ e ∈ ["priority=P1", "priority=P4"], ∃ v,
        parse_set_entry e = Except.ok ("priority", v)) :=
  parse_set_entries_last_wins ["priority=P1", "priority=P4"]
    [("priority", Json.str "P4")] "priority" rfl

/-- C8: the Active filter retains exactly the fetched tasks that are not
deleted and whose status is neither ARCHIVED nor CANCELLED; the All filter
retains every task unchanged. -/
theorem list_tasks_filter_spec (tasks : List Task) (t : Task) :
    (t ∈ list_tasks TaskFilter.Active tasks ↔
      t ∈ tasks ∧ t.deleted = false ∧
        t.status ≠ some "ARCHIVED" ∧ t.status ≠ some "CANCELLED") ∧
    list_tasks TaskFilter.All tasks = tasks := by
  refine ⟨?_, rfl⟩
  simp [list_tasks, List.mem_filter, is_active_task, not_or, and_assoc]

end ReclaimCli

namespace ReclaimCli

theorem splitOnceChars_eq_none (sep : Char) (cs : List Char) :
    splitOnceChars sep cs = none ↔ sep ∉ cs := by
  induction cs with
  | nil => simp [splitOnceChars]
  | cons c cs ih =>
      by_cases hc : c = sep
      · subst hc
        simp [splitOnceChars]
      · simp [splitOnceChars, hc, ih]
        exact fun _ h => hc h.symm

theorem splitOnceChars_append (sep : Char) (v : List Char) :
    ∀ k : List Char, sep ∉ k →
      splitOnceChars sep (k ++ sep :: v) = some (k, v) := by
  intro k
  induction k with
  | nil => intro _; simp [splitOnceChars]
  | cons c cs ih =>
      intro h
      have hc : ¬ c = sep := fun he => h (by rw [← he]; exact List.mem_cons_self c cs)
      have htl : sep ∉ cs := fun hm => h (List.mem_cons_of_mem c hm)
      simp [splitOnceChars, hc, ih htl]

theorem splitOnceStr_none (s : String) (sep : Char) (h : sep ∉ s.toList) :
    splitOnceStr s sep = none := by
  unfold splitOnceStr
  rw [(splitOnceChars_eq_none sep s.toList).mpr h]
  rfl

theorem splitOnceStr_of_decomp (entry k v : String)
    (hdec : entry.toList = k.toList ++ '=' :: v.toList) (hk : '=' ∉ k.toList) :
    splitOnceStr entry '=' = some (k, v) := by
  unfold splitOnceStr
  rw [hdec, splitOnceChars_append '=' v.toList k.toList hk]
  rfl

/-- C2 (amended): a `--set` entry without `=` fails with an Invalid-Input
error; an entry that splits at its first `=` into key text and value text
fails with an Invalid-Input error naming the entry when the trimmed key is
empty, and otherwise stores, under the trimmed key, the parsed JSON value
of the trimmed value text when that parses as JSON, and the trimmed value
text as a literal string otherwise.  (Amendment: the value text is trimmed
before the parse-or-literal rule; the claim stored the raw value text in
the literal-string case.) -/
theorem parse_set_entry_spec (entry k v : String) :
    ('=' ∉ entry.toList →
      parse_set_entry entry = Except.error (CliError.invalidInput
        ("Invalid --set value " ++ sq ++ entry ++ sq ++ ". Expected KEY=VALUE.")
        (some "Examples: --set priority=P4 --set snoozeUntil=2026-02-25T17:00:00Z"))) ∧
    (entry.toList = k.toList ++ '=' :: v.toList → '=' ∉ k.toList →
      (rustTrim k).isEmpty = true →
      parse_set_entry entry = Except.error (CliError.invalidInput
        ("Invalid --set value " ++ sq ++ entry ++ sq ++ ": key cannot be empty.")
        (some "Use a non-empty key, e.g. --set priority=P4"))) ∧
    (entry.toList = k.toList ++ '=' :: v.toList → '=' ∉ k.toList →
      (rustTrim k).isEmpty = false →
      parse_set_entry entry =
        Except.ok (rustTrim k,
          (jsonFromString (rustTrim v)).getD (Json.str (rustTrim v)))) ∧
    parse_set_entry "priority=P4" = Except.ok ("priority", Json.str "P4") ∧
    parse_set_entry "done=true" = Except.ok ("done", Json.bool true) ∧
    parse_set_entry "count=3" = Except.ok ("count", Json.num 3) := by
  refine ⟨?_, ?_, ?_, rfl, rfl, rfl⟩
  · intro h
    unfold parse_set_entry
    rw [splitOnceStr_none entry '=' h]
  · intro hdec hk hkey
    unfold parse_set_entry
    rw [splitOnceStr_of_decomp entry k v hdec hk]
    simp [hkey]
  · intro hdec hk hkey
    unfold parse_set_entry
    rw [splitOnceStr_of_decomp entry k v hdec hk]
    simp [hkey, parse_set_value]

/-- C2 witness: `noequals` is rejected, and `title=hello` stores the
literal string under the key. -/
theorem parse_set_entry_spec_witness :
    parse_set_entry "noequals" = Except.error (CliError.invalidInput
      ("Invalid --set value " ++ sq ++ "noequals" ++ sq ++ ". Expected KEY=VALUE.")
      (some "Examples: --set priority=P4 --set snoozeUntil=2026-02-25T17:00:00Z")) ∧
    parse_set_entry "title=hello" =
      Except.ok (rustTrim "title",
        (jsonFromString (rustTrim "hello")).getD (Json.str (rustTrim "hello"))) :=
  ⟨(parse_set_entry_spec "noequals" "" "").1 (by decide),
    (parse_set_entry_spec "title=hello" "title" "hello").2.2.1 (by decide) (by decide) rfl⟩

/-- C2 counterexample: for the entry `k= P4 ` the parser stores the trimmed
literal string `"P4"`, not the raw value text `" P4 "` that the claim's
literal-string rule dictates. -/
theorem parse_set_entry_counterexample :
    parse_set_entry "k= P4 " = Except.ok ("k", Json.str "P4") ∧
    Json.str "P4" ≠ Json.str " P4 " := by
  refine ⟨rfl, ?_⟩
  intro h
  exact absurd (Json.str.inj h) (by decide)

end ReclaimCli

namespace ReclaimCli

/-- C3: the extracted API message checks, in order, the top-level string
fields `message`, `title`, `error`, `detail` (first non-blank string wins),
then the nested `errors` field in its string / array-of-strings-or-objects
/ object-of-field-to-message-or-array forms (field name prefixed in the
object form); when nothing is extracted, the non-empty trimmed body is used
truncated, and an empty body yields the generic HTTP-status message. -/
theorem extract_api_message_spec (v e j : Json) (msg f s : String)
    (status : Nat) (body : String) (fields : JMap) (items : List Json) :
    (fieldCandidate v "message" = some msg → extract_api_message v = some msg) ∧
    (fieldCandidate v "message" = none → fieldCandidate v "title" = some msg →
      extract_api_message v = some msg) ∧
    (fieldCandidate v "message" = none → fieldCandidate v "title" = none →
      fieldCandidate v "error" = some msg → extract_api_message v = some msg) ∧
    (fieldCandidate v "message" = none → fieldCandidate v "title" = none →
      fieldCandidate v "error" = none → fieldCandidate v "detail" = some msg →
      extract_api_message v = some msg) ∧
    (fieldCandidate v "message" = none → fieldCandidate v "title" = none →
      fieldCandidate v "error" = none → fieldCandidate v "detail" = none →
      jGet v "errors" = some e → extract_errors_message e = some msg →
      (rustTrim msg).isEmpty = false →
      extract_api_message v = some (rustTrim msg)) ∧
    extract_errors_message (Json.str s) = some s ∧
    extract_errors_message (Json.arr (Json.str s :: items)) = some s ∧
    (mapGet fields "message" = some (Json.str s) →
      extract_errors_message (Json.arr (Json.obj fields :: items)) = some s) ∧
    extract_errors_message (Json.obj ((f, Json.str s) :: fields)) =
      some (f ++ ": " ++ s) ∧
    extract_errors_message (Json.obj ((f, Json.arr (Json.str s :: items)) :: fields)) =
      some (f ++ ": " ++ s) ∧
    ((rustTrim body).isEmpty = false → jsonFromString (rustTrim body) = none →
      api_error_message status body =
        truncate_debug_text (rustTrim body) DEBUG_SUMMARY_LIMIT) ∧
    ((rustTrim body).isEmpty = false → jsonFromString (rustTrim body) = some j →
      extract_api_message j = none →
      api_error_message status body =
        truncate_debug_text (rustTrim body) DEBUG_SUMMARY_LIMIT) ∧
    ((rustTrim body).isEmpty = true →
      api_error_message status body =
        "Request failed with HTTP " ++ toString status ++ ".") ∧
    api_error_message 422
        "\x7b\"errors\":\x7b\"priority\":[\"must be one of P1, P2, P3, P4\"]\x7d\x7d" =
      "priority: must be one of P1, P2, P3, P4" := by
  refine ⟨?_, ?_, ?_, ?_, ?_, rfl, rfl, ?_, rfl, rfl, ?_, ?_, ?_, rfl⟩
  · intro h1
    simp [extract_api_message, firstFieldCandidate, h1]
  · intro h1 h2
    simp [extract_api_message, firstFieldCandidate, h1, h2]
  · intro h1 h2 h3
    simp [extract_api_message, firstFieldCandidate, h1, h2, h3]
  · intro h1 h2 h3 h4
    simp [extract_api_message, firstFieldCandidate, h1, h2, h3, h4]
  · intro h1 h2 h3 h4 he hm hne
    simp [extract_api_message, firstFieldCandidate, h1, h2, h3, h4, he, hm, hne]
  · intro h
    simp [extract_errors_message, firstSome, errorsArrayItem, jGet, h]
  · intro hne hparse
    simp [api_error_message, hne, hparse]
  · intro hne hparse hext
    simp [api_error_message, hne, hparse, hext]
  · intro hempty
    simp [api_error_message, hempty]

end ReclaimCli

namespace ReclaimCli

/-- C3 witness: a body with a top-level `message` string field extracts it,
and a blank body falls back to the generic HTTP-status message. -/
theorem extract_api_message_spec_witness :
    extract_api_message (Json.obj [("message", Json.str "boom")]) = some "boom" ∧
    api_error_message 500 "   " = "Request failed with HTTP 500." :=
  ⟨(extract_api_message_spec (Json.obj [("message", Json.str "boom")])
      Json.null Json.null "boom" "" "" 0 "" [] []).1 rfl,
    (extract_api_message_spec Json.null Json.null Json.null "" "" "" 500 "   "
      [] []).2.2.2.2.2.2.2.2.2.2.2.2.1 rfl⟩

end ReclaimCli

namespace ReclaimCli

/-- C6 (amended): provided the optional `--json` blob parses as a JSON
object and every `--set` entry parses, building a PATCH payload fails with
Invalid-Input exactly when the merged object is empty; in particular no
blob and no overrides always fail, and parsed overrides producing a
non-empty object always succeed.  (Amendment: the claim's success and
exactly-when-empty statements hold only when the supplied blob and
overrides themselves parse; an unparseable or non-object blob fails with
Invalid-Input even when the overrides are non-empty.) -/
theorem build_patch_payload_spec (args : PatchArgs) (blob updates : JMap)
    (hblob : json_blob_fields args.json = Except.ok blob)
    (hset : parse_set_entries args.set = Except.ok updates) :
    (args.json = none → args.set = [] →
      build_patch_payload args = Except.error (CliError.invalidInput
        "PATCH requires at least one field update."
        (some ("Pass --json \x27\x7b\x22priority\x22:\x22P4\x22\x7d\x27" ++
          " or one/more --set key=value entries.")))) ∧
    (merge_object_fields blob updates = [] →
      build_patch_payload args = Except.error (CliError.invalidInput
        "PATCH requires at least one field update."
        (some ("Pass --json \x27\x7b\x22priority\x22:\x22P4\x22\x7d\x27" ++
          " or one/more --set key=value entries.")))) ∧
    (merge_object_fields blob updates ≠ [] →
      build_patch_payload args =
        Except.ok (Json.obj (merge_object_fields blob updates))) ∧
    (updates ≠ [] →
      build_patch_payload args =
        Except.ok (Json.obj (merge_object_fields blob updates))) := by
  have hrun : build_patch_payload args =
      (if (merge_object_fields blob updates).isEmpty then
        Except.error (CliError.invalidInput
          "PATCH requires at least one field update."
          (some ("Pass --json \x27\x7b\x22priority\x22:\x22P4\x22\x7d\x27" ++
            " or one/more --set key=value entries.")))
      else Except.ok (Json.obj (merge_object_fields blob updates))) := by
    unfold build_patch_payload
    rw [hblob, hset]
    rfl
  have hempty : ∀ m : JMap, m ≠ [] → m.isEmpty = false := by
    intro m hm
    cases m with
    | nil => exact absurd rfl hm
    | cons hd tl => rfl
  refine ⟨?_, ?_, ?_, ?_⟩
  · intro hj hs
    rw [hj] at hblob
    rw [hs] at hset
    have hb : ([] : JMap) = blob := Except.ok.inj hblob
    have hs' : ([] : JMap) = updates := Except.ok.inj hset
    rw [hrun, ← hb, ← hs']
    rfl
  · intro hm
    rw [hrun, hm]
    rfl
  · intro hm
    rw [hrun, hempty _ hm]
    rfl
  · intro hu
    rw [hrun, hempty _ (merge_object_fields_ne_nil_right blob updates hu)]
    rfl

/-- C6 witness: `--set priority=P4` with no blob builds the payload
`{"priority": "P4"}`. -/
theorem build_patch_payload_spec_witness :
    build_patch_payload patchSetOnlyArgs =
      Except.ok (Json.obj (merge_object_fields [] [("priority", Json.str "P4")])) :=
  (build_patch_payload_spec patchSetOnlyArgs
      [] [("priority", Json.str "P4")] rfl rfl).2.2.2 (by simp)

/-- C6 counterexample: with the non-object blob `[]` and the parseable,
non-empty override `a=1`, the build fails with Invalid-Input even though
the overrides produce a non-empty object, contradicting the claim's
"fails exactly when the merged result is empty" and "parseable non-empty
overrides always succeed". -/
theorem build_patch_payload_counterexample :
    parse_set_entries ["a=1"] = Except.ok [("a", Json.num 1)] ∧
    build_patch_payload patchBadBlobArgs =
      Except.error (CliError.invalidInput
        "Invalid --json value: expected a JSON object."
        (some (jsonObjectHint "--json"))) :=
  ⟨rfl, rfl⟩

end ReclaimCli

namespace ReclaimCli

/-- C5: building a PUT payload with neither blob nor overrides fails with
Invalid-Input and issues no network call; with no blob but overrides
present, the builder issues exactly the GET for the task and, when the GET
and the overrides succeed, the payload is the fetched task's JSON object
with the override keys replaced (lookups prefer the overrides, and keys
only in the fetched task survive unchanged). -/
theorem build_put_payload_spec (get_task : Nat → Except CliError Task)
    (args : PutArgs) (existing : Task) (updates : JMap) (k : String) :
    (args.json = none → args.set = [] →
      build_put_payload get_task args = (Except.error (CliError.invalidInput
        "PUT requires update data. Pass --json and/or one or more --set entries."
        (some ("Examples: --json \x27\x7b\x22title\x22:\x22Plan sprint\x22\x7d\x27" ++
          " or --set priority=P4"))), [])) ∧
    (args.json = none → args.set ≠ [] →
      get_task args.task_id = Except.ok existing →
      parse_set_entries args.set = Except.ok updates →
      (build_put_payload get_task args =
        (Except.ok (Json.obj (merge_object_fields (taskToJsonObj existing) updates)),
          [ApiCall.getTask args.task_id]) ∧
        mapGet (merge_object_fields (taskToJsonObj existing) updates) k =
          (mapGet updates k).orElse
            (fun _ => mapGet (taskToJsonObj existing) k))) := by
  constructor
  · intro h1 h2
    simp [build_put_payload, h1, h2]
  · intro h1 h2 hget hset
    have hne : args.set.isEmpty = false := by
      cases hs : args.set with
      | nil => exact absurd hs h2
      | cons a l => rfl
    constructor
    · simp [build_put_payload, h1, hne, hget, hset]
    · exact mapGet_merge_object_fields updates
        (parse_set_entries_nodup args.set updates hset) (taskToJsonObj existing) k

/-- C5 witness: PUT with neither blob nor overrides fails before any call;
PUT with only `--set title=hello` issues the GET and builds the fetched
task's JSON with `title` replaced. -/
theorem build_put_payload_spec_witness :
    (build_put_payload putFixtureOracle putEmptyArgs = (Except.error (CliError.invalidInput
      "PUT requires update data. Pass --json and/or one or more --set entries."
      (some ("Examples: --json \x27\x7b\x22title\x22:\x22Plan sprint\x22\x7d\x27" ++
        " or --set priority=P4"))), [])) ∧
    (build_put_payload putFixtureOracle putSetOnlyArgs =
      (Except.ok (Json.obj (merge_object_fields (taskToJsonObj putFixtureTask)
          [("title", Json.str "hello")])),
        [ApiCall.getTask 9]) ∧
      mapGet (merge_object_fields (taskToJsonObj putFixtureTask)
          [("title", Json.str "hello")]) "title" =
        (mapGet [("title", Json.str "hello")] "title").orElse
          (fun _ => mapGet (taskToJsonObj putFixtureTask) "title")) :=
  ⟨(build_put_payload_spec putFixtureOracle putEmptyArgs putFixtureTask [] "title").1
      rfl rfl,
    (build_put_payload_spec putFixtureOracle putSetOnlyArgs putFixtureTask
      [("title", Json.str "hello")] "title").2 rfl (by simp [putSetOnlyArgs]) rfl rfl⟩

end ReclaimCli

namespace ReclaimCli

/-- C7: creating a task rejects chunk bounds without `--time-chunks-required`;
with a total and no explicit bounds it synthesizes min = 1 and max = total;
a resolved bound exceeding the total is a distinct Invalid-Input error
citing that bound, and resolved min exceeding resolved max is a further
distinct Invalid-Input error. -/
theorem build_create_task_request_spec (args : CreateArgs) (total min max : Nat) :
    (args.due.any (fun due => (rustTrim due).isEmpty) = false →
      (args.min_chunk_size.isSome || args.max_chunk_size.isSome) = true →
      args.time_chunks_required = none →
      build_create_task_request args = Except.error (CliError.invalidInput
        ("Invalid chunk options: --min-chunk-size/--max-chunk-size require" ++
          " --time-chunks-required.")
        (some ("Pass --time-chunks-required with chunk size options, e.g." ++
          " --time-chunks-required 4 --min-chunk-size 2 --max-chunk-size 4")))) ∧
    (args.due.any (fun due => (rustTrim due).isEmpty) = false →
      args.time_chunks_required = some total →
      args.min_chunk_size = none → args.max_chunk_size = none →
      1 ≤ total →
      build_create_task_request args = Except.ok
        ⟨args.title, args.notes, args.priority.map Priority.as_str, args.due,
          some total, some 1, some total, some args.event_category.as_str,
          some args.always_private⟩) ∧
    (args.due.any (fun due => (rustTrim due).isEmpty) = false →
      args.time_chunks_required = some total →
      args.min_chunk_size = some min → min > total →
      build_create_task_request args = Except.error (CliError.invalidInput
        ("Invalid --min-chunk-size value: " ++ toString min ++
          " exceeds --time-chunks-required (" ++ toString total ++ ").")
        (some "Use a min chunk size less than or equal to --time-chunks-required."))) ∧
    (args.due.any (fun due => (rustTrim due).isEmpty) = false →
      args.time_chunks_required = some total →
      args.max_chunk_size = some max →
      args.min_chunk_size.getD 1 ≤ total → max > total →
      build_create_task_request args = Except.error (CliError.invalidInput
        ("Invalid --max-chunk-size value: " ++ toString max ++
          " exceeds --time-chunks-required (" ++ toString total ++ ").")
        (some "Use a max chunk size less than or equal to --time-chunks-required."))) ∧
    (args.due.any (fun due => (rustTrim due).isEmpty) = false →
      args.time_chunks_required = some total →
      args.min_chunk_size.getD 1 ≤ total →
      args.max_chunk_size.getD total ≤ total →
      args.min_chunk_size.getD 1 > args.max_chunk_size.getD total →
      build_create_task_request args = Except.error (CliError.invalidInput
        ("Invalid chunk bounds: --min-chunk-size (" ++
          toString (args.min_chunk_size.getD 1) ++
          ") cannot exceed --max-chunk-size (" ++
          toString (args.max_chunk_size.getD total) ++ ").")
        (some "Choose chunk sizes where min <= max."))) := by
  refine ⟨?_, ?_, ?_, ?_, ?_⟩
  · intro hdue hms htcr
    simp [build_create_task_request, hdue, hms, htcr, throw, throwThe,
      MonadExceptOf.throw, bind, Except.bind, Functor.map, Except.map, pure,
      Except.pure]
  · intro hdue htcr hmin hmax h1t
    have h0 : ¬ total = 0 := Nat.pos_iff_ne_zero.mp h1t
    simp [build_create_task_request, hdue, htcr, hmin, hmax,
      Nat.not_lt.mpr h1t, h0, throw, throwThe,
      MonadExceptOf.throw, bind, Except.bind, Functor.map, Except.map, pure,
      Except.pure]
  · intro hdue htcr hmin hmt
    simp [build_create_task_request, hdue, htcr, hmin, hmt, throw, throwThe,
      MonadExceptOf.throw, bind, Except.bind, Functor.map, Except.map, pure,
      Except.pure]
  · intro hdue htcr hmax hminle hmt
    simp [build_create_task_request, hdue, htcr, hmax,
      Nat.not_lt.mpr hminle, hmt, throw, throwThe,
      MonadExceptOf.throw, bind, Except.bind, Functor.map, Except.map, pure,
      Except.pure]
  · intro hdue htcr hminle hmaxle hminmax
    simp [build_create_task_request, hdue, htcr,
      Nat.not_lt.mpr hminle, Nat.not_lt.mpr hmaxle, hminmax, throw,
      throwThe, MonadExceptOf.throw, bind, Except.bind, Functor.map,
      Except.map, pure, Except.pure]

end ReclaimCli

namespace ReclaimCli

/-- C7 witness: `timeChunksRequired=4` with no explicit bounds resolves
`minChunkSize=1, maxChunkSize=4`; `minChunkSize=5` with
`timeChunksRequired=4` fails citing the bound exceeding the total. -/
theorem build_create_task_request_spec_witness :
    build_create_task_request createDefaultsArgs = Except.ok
      ⟨"Plan Q1 roadmap", none, none, none, some 4, some 1, some 4,
        some "WORK", some true⟩ ∧
    build_create_task_request createMinTooBigArgs = Except.error
      (CliError.invalidInput
        ("Invalid --min-chunk-size value: " ++ toString 5 ++
          " exceeds --time-chunks-required (" ++ toString 4 ++ ").")
        (some "Use a min chunk size less than or equal to --time-chunks-required.")) :=
  ⟨(build_create_task_request_spec createDefaultsArgs 4 0 0).2.1
      rfl rfl rfl rfl (by decide),
    (build_create_task_request_spec createMinTooBigArgs 4 5 0).2.2.1
      rfl rfl rfl (by decide)⟩

end ReclaimCli

namespace ReclaimCli

/-- C1: when the event-create validations pass and the blob and overrides
parse, the built payload wraps the action map obtained by merging the
typed-flags map, then the blob fields, then the overrides; a key's final
value comes from the overrides when they bind it, else from the blob, else
from the flags — each later stage fully overwrites colliding keys and keys
bound only by an earlier stage survive unchanged. -/
theorem build_event_create_request_precedence (args : EventsCreateArgs)
    (blob updates : JMap) (k : String)
    (hstart : (rustTrim args.start).isEmpty = false)
    (hend : (rustTrim args.«end»).isEmpty = false)
    (hpolicy : (rustTrim args.policy_id).isEmpty = false)
    (hblob : json_blob_fields args.json = Except.ok blob)
    (hset : parse_set_entries args.set = Except.ok updates) :
    build_event_create_request args = Except.ok (Json.obj
      [("actionsTaken", Json.arr [Json.obj
        (merge_object_fields
          (merge_object_fields (event_create_flags_map args) blob) updates)])]) ∧
    mapGet (merge_object_fields
        (merge_object_fields (event_create_flags_map args) blob) updates) k =
      (mapGet updates k).orElse (fun _ =>
        (mapGet blob k).orElse (fun _ =>
          mapGet (event_create_flags_map args) k)) := by
  constructor
  · cases hj : args.json with
    | none =>
        rw [hj] at hblob
        have hb : ([] : JMap) = blob := Except.ok.inj hblob
        rw [← hb]
        simp [build_event_create_request, hstart, hend, hpolicy, hj, hset,
          merge_object_fields_nil, throw, throwThe, MonadExceptOf.throw, bind,
          Except.bind, pure, Except.pure]
    | some raw_json =>
        rw [hj] at hblob
        have hb : parse_json_object_argument raw_json "--json" = Except.ok blob := hblob
        simp [build_event_create_request, hstart, hend, hpolicy, hj, hb, hset,
          throw, throwThe, MonadExceptOf.throw, bind, Except.bind, pure,
          Except.pure]
  · simp only [mapGet_merge_object_fields updates
      (parse_set_entries_nodup args.set updates hset),
      mapGet_merge_object_fields blob (json_blob_fields_nodup args.json blob hblob)]

/-- C1 witness: with flags giving `title = "Team sync"`, a blob giving
`title = "B"` and `x = 1`, and overrides giving `title = "C"` and `y = 2`,
the built action binds `title` to the override value `"C"`. -/
theorem build_event_create_request_precedence_witness :
    build_event_create_request eventsCreateFixtureArgs = Except.ok (Json.obj
      [("actionsTaken", Json.arr [Json.obj
        (merge_object_fields
          (merge_object_fields (event_create_flags_map eventsCreateFixtureArgs)
            [("title", Json.str "B"), ("x", Json.num 1)])
          [("title", Json.str "C"), ("y", Json.num 2)])])]) ∧
    mapGet (merge_object_fields
        (merge_object_fields (event_create_flags_map eventsCreateFixtureArgs)
          [("title", Json.str "B"), ("x", Json.num 1)])
        [("title", Json.str "C"), ("y", Json.num 2)]) "title" =
      (mapGet [("title", Json.str "C"), ("y", Json.num 2)] "title").orElse (fun _ =>
        (mapGet [("title", Json.str "B"), ("x", Json.num 1)] "title").orElse (fun _ =>
          mapGet (event_create_flags_map eventsCreateFixtureArgs) "title")) :=
  build_event_create_request_precedence eventsCreateFixtureArgs
    [("title", Json.str "B"), ("x", Json.num 1)]
    [("title", Json.str "C"), ("y", Json.num 2)] "title" rfl rfl rfl rfl rfl

end ReclaimCli

namespace ReclaimCli

theorem mapGet_append (m₁ m₂ : JMap) (k : String) :
    mapGet (m₁ ++ m₂) k = (mapGet m₁ k).orElse (fun _ => mapGet m₂ k) := by
  induction m₁ with
  | nil => simp [mapGet, Option.orElse]
  | cons hd tl ih =>
      obtain ⟨k0, v0⟩ := hd
      by_cases h0 : k0 = k <;> simp [mapGet, h0, ih, Option.orElse]

theorem decodeOptStrField_optStrJson (o : Option String) (m : JMap) (k : String)
    (h : mapGet m k = some (optStrJson o)) : decodeOptStrField m k = some o := by
  cases o <;> simp [decodeOptStrField, h, optStrJson]

/-- C9 (amended): serializing a Task to JSON and decoding it back yields an
equal Task — including every unmodeled extension field preserved verbatim —
provided no extension-field key collides with a known field name
(`id`, `title`, `status`, `due`, `priority`, `notes`, `deleted`).  (The
extension map, being a map, binds each key once.) -/
theorem task_roundtrip (t : Task)
    (hdisj : ∀ kv ∈ t.extra, kv.1 ∉ taskKnownFields)
    (hnodup : (mapKeys t.extra).Nodup) :
    taskFromJsonObj (taskToJsonObj t) = some t := by
  obtain ⟨id, title, status, due, priority, notes, deleted, extra⟩ := t
  have hsplit : taskToJsonObj ⟨id, title, status, due, priority, notes, deleted, extra⟩ =
      [("id", Json.num (Int.ofNat id)), ("title", Json.str title),
        ("status", optStrJson status), ("due", optStrJson due),
        ("priority", optStrJson priority), ("notes", optStrJson notes),
        ("deleted", Json.bool deleted)] ++ extra := by
    apply merge_object_fields_eq_append extra _ _ hnodup
    intro key hkey
    obtain ⟨kv, hkv, hfst⟩ := List.mem_map.mp hkey
    exact hfst ▸ hdisj kv hkv
  have hextra : ∀ kv ∈ extra, (!taskKnownFields.contains kv.1) = true := by
    intro kv hkv
    simpa using hdisj kv hkv
  have hextra' : ∀ (a : String) (b : Json), (a, b) ∈ extra →
      ¬a = "id" ∧ ¬a = "title" ∧ ¬a = "status" ∧ ¬a = "due" ∧
        ¬a = "priority" ∧ ¬a = "notes" ∧ ¬a = "deleted" := by
    intro a b hab
    simpa [taskKnownFields] using hdisj (a, b) hab
  rw [taskFromJsonObj, hsplit]
  cases status <;> cases due <;> cases priority <;> cases notes <;>
    simp [mapGet_append, mapGet, optStrJson, decodeOptStrField,
      List.filter_append, List.filter_eq_self.mpr hextra, Option.orElse,
      Option.bind, taskKnownFields, List.filter, Int.toNat_ofNat]
  all_goals exact hextra'

end ReclaimCli

namespace ReclaimCli

/-- C9 witness: a task with the extension fields `snoozeUntil` and
`timeChunksRequired` round-trips unchanged. -/
theorem task_roundtrip_witness :
    taskFromJsonObj (taskToJsonObj roundtripTask) = some roundtripTask :=
  task_roundtrip roundtripTask (by decide) (by decide)

/-- C9 counterexample: a task whose extension map binds `title` does not
round-trip — the flattened extension value overwrites the typed field on
serialization, so decoding yields a different task. -/
theorem task_roundtrip_counterexample :
    taskFromJsonObj (taskToJsonObj collidingTask) ≠ some collidingTask := by
  intro h
  have h1 : (taskFromJsonObj (taskToJsonObj collidingTask)).map Task.title =
      some "b" := rfl
  rw [h] at h1
  exact absurd (Option.some.inj h1) (by decide)

end ReclaimCli
